import Mathlib

/-!
Verification of the Nylas webhook / pub-sub notification server (src/index.ts).

The development shallowly embeds the request-handling core of the server:

* a model of JSON documents (`Json`), of `JSON.parse` (`Json.parse`) and of
  `JSON.stringify` (`Json.serialize`), since the server's body parsing,
  raw-body capture and envelope decoding are built from these;
* a byte-level model of the crypto used on the webhook path: UTF-8
  encoding, SHA-256, HMAC-SHA-256 and hex encoding (`hexHmacSha256`),
  mirroring node's `crypto.createHmac('sha256', secret).update(body).digest('hex')`;
* a model of node's forgiving base64 decoding (`b64decode`) and of UTF-8
  decoding with replacement characters (`utf8Decode`), mirroring
  `Buffer.from(data, 'base64').toString('utf-8')`;
* JavaScript value semantics for the dynamic field accesses the handlers
  perform: `undefined` is `Option.none`, property access on
  `undefined`/`null` raises a `TypeError`, truthiness, `||` defaults,
  optional chaining, and `Date.prototype.toISOString` raising a
  `RangeError` on an invalid (NaN / out-of-range) time value;
* the three HTTP handlers of the core: `GET /webhook/nylas` (challenge
  echo), `POST /webhook/nylas` (signature verification + dispatch) and
  `POST /pubsub/nylas` (envelope decode + dispatch).

Modelling notes (deviations that no theorem below depends on):
* numeric JSON literals are modelled as decimal integers (`Int`); fraction
  and exponent forms are outside the model, as are NaN-producing string
  coercions beyond simple integer strings;
* `Date.prototype.toISOString` is modelled as rendering the millisecond
  value itself (`jsToISO`); only whether it throws is claim-relevant;
* lone surrogate `\u` escapes decode to U+FFFD (Lean strings hold scalar
  values only); JavaScript object key reordering of integer-like keys in
  `JSON.stringify` is not modelled (no input below uses such keys).
-/

/-- A JSON document, as produced by `JSON.parse`: numbers are modelled as
integers (see module comment). Object fields keep insertion order, matching
JavaScript objects with string keys. -/
inductive Json where
  | null
  | bool (b : Bool)
  | num (n : Int)
  | str (s : String)
  | arr (xs : List Json)
  | obj (kvs : List (String × Json))
deriving Repr

namespace Json

/-- Look up a key in an object's field list (first occurrence). -/
def lookupKey (kvs : List (String × Json)) (k : String) : Option Json :=
  match kvs with
  | [] => none
  | (k', v) :: rest => if k' = k then some v else lookupKey rest k

/-- Insert a key into an object's field list the way `JSON.parse` builds
objects: a duplicate key keeps its first position but takes the new value
(last assignment wins), a fresh key is appended. -/
def insertKey (kvs : List (String × Json)) (k : String) (v : Json) : List (String × Json) :=
  match kvs with
  | [] => [(k, v)]
  | (k', v') :: rest => if k' = k then (k', v) :: rest else (k', v') :: insertKey rest k v

/-- JSON whitespace accepted by `JSON.parse`: space, tab, line feed, carriage
return. -/
def isWs (c : Char) : Bool :=
  c == ' ' || c == Char.ofNat 9 || c == Char.ofNat 10 || c == Char.ofNat 13

/-- Drop leading JSON whitespace. -/
def skipWs : List Char → List Char
  | [] => []
  | c :: rest => if isWs c then skipWs rest else c :: rest

/-- Decimal digit test. -/
def isDigit (c : Char) : Bool := '0' ≤ c && c ≤ '9'

/-- Hexadecimal digit value, if any. -/
def hexVal (c : Char) : Option Nat :=
  if '0' ≤ c && c ≤ '9' then some (c.toNat - 48)
  else if 'a' ≤ c && c ≤ 'f' then some (c.toNat - 87)
  else if 'A' ≤ c && c ≤ 'F' then some (c.toNat - 55)
  else none

/-- Read a run of decimal digits, returning them and the rest. -/
def takeDigits : List Char → List Char × List Char
  | [] => ([], [])
  | c :: rest =>
    if isDigit c then
      let (ds, r) := takeDigits rest
      (c :: ds, r)
    else ([], c :: rest)

/-- Value of a list of decimal digits. -/
def digitsToNat (ds : List Char) : Nat :=
  ds.foldl (fun acc c => acc * 10 + (c.toNat - 48)) 0

/-- Parse the body of a JSON string literal (after the opening quote),
handling the escape sequences `JSON.parse` accepts. A lone `\u` surrogate
half becomes U+FFFD (see module comment); an unescaped control character or
a bad escape is a parse error, as in JavaScript. Returns the decoded
characters and the input after the closing quote. The `fuel` argument is a
structural-recursion bound, always called with more fuel than characters. -/
def parseStringBody (fuel : Nat) (cs : List Char) : Option (List Char × List Char) :=
  match fuel with
  | 0 => none
  | fuel + 1 =>
    match cs with
    | [] => none
    | c :: rest =>
      if c == Char.ofNat 34 then some ([], rest)
      else if c == Char.ofNat 92 then
        match rest with
        | [] => none
        | e :: rest' =>
          if e == Char.ofNat 34 || e == Char.ofNat 92 || e == '/' then
            match parseStringBody fuel rest' with
            | some (s, r) => some (e :: s, r)
            | none => none
          else if e == 'b' then
            match parseStringBody fuel rest' with
            | some (s, r) => some (Char.ofNat 8 :: s, r)
            | none => none
          else if e == 'f' then
            match parseStringBody fuel rest' with
            | some (s, r) => some (Char.ofNat 12 :: s, r)
            | none => none
          else if e == 'n' then
            match parseStringBody fuel rest' with
            | some (s, r) => some (Char.ofNat 10 :: s, r)
            | none => none
          else if e == 'r' then
            match parseStringBody fuel rest' with
            | some (s, r) => some (Char.ofNat 13 :: s, r)
            | none => none
          else if e == 't' then
            match parseStringBody fuel rest' with
            | some (s, r) => some (Char.ofNat 9 :: s, r)
            | none => none
          else if e == 'u' then
            match rest' with
            | h1 :: h2 :: h3 :: h4 :: rest'' =>
              match hexVal h1, hexVal h2, hexVal h3, hexVal h4 with
              | some a, some b, some c', some d =>
                let code := ((a * 16 + b) * 16 + c') * 16 + d
                let ch := if 0xD800 ≤ code && code ≤ 0xDFFF then Char.ofNat 0xFFFD
                          else Char.ofNat code
                match parseStringBody fuel rest'' with
                | some (s, r) => some (ch :: s, r)
                | none => none
              | _, _, _, _ => none
            | _ => none
          else none
      else if c.toNat < 32 then none
      else
        match parseStringBody fuel rest with
        | some (s, r) => some (c :: s, r)
        | none => none

/-- Parse a JSON number: optional minus, then `0` or a nonzero-led digit
run. Fraction/exponent forms are outside the model (module comment). -/
def parseNum (cs : List Char) : Option (Int × List Char) :=
  match cs with
  | '-' :: rest =>
    match parseNum rest with
    | some (n, r) => if n ≥ 0 then some (-n, r) else none
    | none => none
  | c :: rest =>
    if isDigit c then
      if c == '0' then some (0, rest)
      else
        let (ds, r) := takeDigits rest
        some (Int.ofNat (digitsToNat (c :: ds)), r)
    else none
  | [] => none

/-- Does the input start with the given literal word? Returns the remainder
if so. -/
def eatLit (w : List Char) (cs : List Char) : Option (List Char) :=
  match w, cs with
  | [], rest => some rest
  | l :: w', c :: rest => if l == c then eatLit w' rest else none
  | _ :: _, [] => none

mutual

/-- Parse one JSON value from the input (leading whitespace allowed),
mirroring the recursive-descent grammar `JSON.parse` implements. -/
def parseValue (fuel : Nat) (cs : List Char) : Option (Json × List Char) :=
  match fuel with
  | 0 => none
  | fuel + 1 =>
    match skipWs cs with
    | [] => none
    | c :: rest =>
      if c == Char.ofNat 34 then
        match parseStringBody (rest.length + 1) rest with
        | some (s, r) => some (.str (String.mk s), r)
        | none => none
      else if c == Char.ofNat 123 then
        parseObjFields fuel [] true rest
      else if c == '[' then
        parseArrElems fuel [] true rest
      else if c == 't' then
        match eatLit ['r', 'u', 'e'] rest with
        | some r => some (.bool true, r)
        | none => none
      else if c == 'f' then
        match eatLit ['a', 'l', 's', 'e'] rest with
        | some r => some (.bool false, r)
        | none => none
      else if c == 'n' then
        match eatLit ['u', 'l', 'l'] rest with
        | some r => some (.null, r)
        | none => none
      else
        match parseNum (c :: rest) with
        | some (n, r) => some (.num n, r)
        | none => none

/-- Parse the fields of an object after the opening brace. `first` is true
until a field has been read, so that `\x7b}` and `\x7bk:v,...}` both follow the
grammar; a trailing comma is an error, as in JavaScript. -/
def parseObjFields (fuel : Nat) (acc : List (String × Json)) (first : Bool)
    (cs : List Char) : Option (Json × List Char) :=
  match fuel with
  | 0 => none
  | fuel + 1 =>
    match skipWs cs with
    | [] => none
    | c :: rest =>
      if c == Char.ofNat 125 then
        some (.obj acc, rest)
      else
        let afterComma :=
          if first then some (c :: rest)
          else if c == ',' then some (skipWs rest) else none
        match afterComma with
        | none => none
        | some cs' =>
          match cs' with
          | q :: cs'' =>
            if q == Char.ofNat 34 then
              match parseStringBody (cs''.length + 1) cs'' with
              | some (k, afterKey) =>
                match skipWs afterKey with
                | ':' :: afterColon =>
                  match parseValue fuel afterColon with
                  | some (v, afterVal) =>
                    parseObjFields fuel (insertKey acc (String.mk k) v) false (skipWs afterVal)
                  | none => none
                | _ => none
              | none => none
            else none
          | [] => none

/-- Parse the elements of an array after the opening bracket. -/
def parseArrElems (fuel : Nat) (acc : List Json) (first : Bool)
    (cs : List Char) : Option (Json × List Char) :=
  match fuel with
  | 0 => none
  | fuel + 1 =>
    match skipWs cs with
    | [] => none
    | c :: rest =>
      if c == ']' then
        some (.arr acc.reverse, rest)
      else
        let start :=
          if first then some (c :: rest)
          else if c == ',' then some rest else none
        match start with
        | none => none
        | some cs' =>
          match parseValue fuel cs' with
          | some (v, afterVal) => parseArrElems fuel (v :: acc) false afterVal
          | none => none

end

/-- Model of `JSON.parse`: parse a whole document, requiring only
whitespace to remain. -/
def parse (s : String) : Option Json :=
  match parseValue (s.length + 1) s.data with
  | some (v, rest) => if skipWs rest = [] then some v else none
  | none => none

/-- Serialize one character of a string literal the way `JSON.stringify`
does: quote, backslash and the common control characters get two-character
escapes, other control characters get `\u00XX`, everything else is literal. -/
def escapeChar (c : Char) : List Char :=
  if c == Char.ofNat 34 then [Char.ofNat 92, Char.ofNat 34]
  else if c == Char.ofNat 92 then [Char.ofNat 92, Char.ofNat 92]
  else if c == Char.ofNat 8 then [Char.ofNat 92, 'b']
  else if c == Char.ofNat 9 then [Char.ofNat 92, 't']
  else if c == Char.ofNat 10 then [Char.ofNat 92, 'n']
  else if c == Char.ofNat 12 then [Char.ofNat 92, 'f']
  else if c == Char.ofNat 13 then [Char.ofNat 92, 'r']
  else if c.toNat < 32 then
    let hi := c.toNat / 16
    let lo := c.toNat % 16
    let hexDigit := fun (n : Nat) => if n < 10 then Char.ofNat (48 + n) else Char.ofNat (87 + n)
    [Char.ofNat 92, 'u', '0', '0', hexDigit hi, hexDigit lo]
  else [c]

/-- Serialize a string with surrounding quotes, as `JSON.stringify` does. -/
def quoteString (s : String) : String :=
  String.mk (Char.ofNat 34 :: (s.data.map escapeChar).flatten ++ [Char.ofNat 34])

mutual

/-- Model of `JSON.stringify` (no indent argument): compact output,
object fields in insertion order. -/
def serialize : Json → String
  | .null => "null"
  | .bool true => "true"
  | .bool false => "false"
  | .num n => toString n
  | .str s => quoteString s
  | .arr xs => "[" ++ serializeList xs ++ "]"
  | .obj kvs => String.mk [Char.ofNat 123] ++ serializeFields kvs ++ String.mk [Char.ofNat 125]

/-- Comma-joined serialization of array elements. -/
def serializeList : List Json → String
  | [] => ""
  | [x] => serialize x
  | x :: rest => serialize x ++ "," ++ serializeList rest

/-- Comma-joined serialization of object fields. -/
def serializeFields : List (String × Json) → String
  | [] => ""
  | [(k, v)] => quoteString k ++ ":" ++ serialize v
  | (k, v) :: rest => quoteString k ++ ":" ++ serialize v ++ "," ++ serializeFields rest

end

end Json

/-! ## Bytes: UTF-8, base64, SHA-256, HMAC

These model the byte-level operations the server delegates to node:
`Buffer.from(s, 'utf-8')` / `.toString('utf-8')`, `Buffer.from(s, 'base64')`
and `crypto.createHmac('sha256', secret).update(body).digest('hex')`. -/

/-- UTF-8 encoding of one scalar value, as a list of byte values. -/
def utf8EncodeChar (c : Char) : List Nat :=
  let n := c.toNat
  if n < 0x80 then [n]
  else if n < 0x800 then
    [0xC0 + n / 64, 0x80 + n % 64]
  else if n < 0x10000 then
    [0xE0 + n / 4096, 0x80 + (n / 64) % 64, 0x80 + n % 64]
  else
    [0xF0 + n / 262144, 0x80 + (n / 4096) % 64, 0x80 + (n / 64) % 64, 0x80 + n % 64]

/-- UTF-8 bytes of a string (model of `Buffer.from(s, 'utf-8')`). -/
def strBytes (s : String) : List Nat :=
  (s.data.map utf8EncodeChar).flatten

/-- Is a byte a UTF-8 continuation byte (`10xxxxxx`)? -/
def isCont (b : Nat) : Bool := 0x80 ≤ b && b ≤ 0xBF

/-- UTF-8 decoding with U+FFFD replacement for invalid sequences, the
lenient decoding `Buffer.prototype.toString('utf-8')` performs. `fuel`
bounds the recursion and is always supplied larger than the input. -/
def utf8DecodeAux (fuel : Nat) (bs : List Nat) : List Char :=
  match fuel with
  | 0 => []
  | fuel + 1 =>
    match bs with
    | [] => []
    | b :: rest =>
      if b < 0x80 then Char.ofNat b :: utf8DecodeAux fuel rest
      else if 0xC2 ≤ b && b ≤ 0xDF then
        match rest with
        | b2 :: rest' =>
          if isCont b2 then
            Char.ofNat ((b - 0xC0) * 64 + (b2 - 0x80)) :: utf8DecodeAux fuel rest'
          else Char.ofNat 0xFFFD :: utf8DecodeAux fuel rest
        | [] => [Char.ofNat 0xFFFD]
      else if 0xE0 ≤ b && b ≤ 0xEF then
        match rest with
        | b2 :: b3 :: rest' =>
          let lo2 := if b == 0xE0 then 0xA0 else 0x80
          let hi2 := if b == 0xED then 0x9F else 0xBF
          if lo2 ≤ b2 && b2 ≤ hi2 && isCont b3 then
            Char.ofNat ((b - 0xE0) * 4096 + (b2 - 0x80) * 64 + (b3 - 0x80)) ::
              utf8DecodeAux fuel rest'
          else Char.ofNat 0xFFFD :: utf8DecodeAux fuel rest
        | _ => [Char.ofNat 0xFFFD]
      else if 0xF0 ≤ b && b ≤ 0xF4 then
        match rest with
        | b2 :: b3 :: b4 :: rest' =>
          let lo2 := if b == 0xF0 then 0x90 else 0x80
          let hi2 := if b == 0xF4 then 0x8F else 0xBF
          if lo2 ≤ b2 && b2 ≤ hi2 && isCont b3 && isCont b4 then
            Char.ofNat ((b - 0xF0) * 262144 + (b2 - 0x80) * 4096 +
              (b3 - 0x80) * 64 + (b4 - 0x80)) :: utf8DecodeAux fuel rest'
          else Char.ofNat 0xFFFD :: utf8DecodeAux fuel rest
        | _ => [Char.ofNat 0xFFFD]
      else Char.ofNat 0xFFFD :: utf8DecodeAux fuel rest

/-- Decode bytes to a string (model of `buf.toString('utf-8')`). -/
def utf8Decode (bs : List Nat) : String :=
  String.mk (utf8DecodeAux (bs.length + 1) bs)

/-- Base64 alphabet value of a character, accepting both the standard and
the URL-safe alphabet as node does; `none` for characters node's forgiving
decoder skips (whitespace, padding, anything else invalid). -/
def b64Val (c : Char) : Option Nat :=
  if 'A' ≤ c && c ≤ 'Z' then some (c.toNat - 65)
  else if 'a' ≤ c && c ≤ 'z' then some (c.toNat - 97 + 26)
  else if '0' ≤ c && c ≤ '9' then some (c.toNat - 48 + 52)
  else if c == '+' || c == '-' then some 62
  else if c == '/' || c == '_' then some 63
  else none

/-- Turn a cleaned run of base64 digit values into bytes: full groups of
four give three bytes, a trailing group of three gives two, of two gives
one, of one gives none. -/
def b64Groups (fuel : Nat) (vs : List Nat) : List Nat :=
  match fuel with
  | 0 => []
  | fuel + 1 =>
    match vs with
    | a :: b :: c :: d :: rest =>
      (a * 4 + b / 16) :: ((b % 16) * 16 + c / 4) :: ((c % 4) * 64 + d) ::
        b64Groups fuel rest
    | [a, b, c] => [a * 4 + b / 16, (b % 16) * 16 + c / 4]
    | [a, b] => [a * 4 + b / 16]
    | [_] => []
    | [] => []

/-- Model of node's `Buffer.from(s, 'base64')`: forgiving decoding that
drops every character outside the (standard or URL-safe) alphabet,
including `=` padding, then converts 6-bit groups to bytes. It never
fails: invalid input simply decodes to fewer (possibly zero) bytes. -/
def b64decode (s : String) : List Nat :=
  let vs := s.data.filterMap b64Val
  b64Groups (vs.length + 1) vs

/-! ### SHA-256 -/

/-- Truncate to a 32-bit word. -/
def w32 (n : Nat) : Nat := n % 4294967296

/-- 32-bit rotate right. -/
def rotr (k x : Nat) : Nat := w32 ((x >>> k) ||| (x <<< (32 - k)))

/-- The SHA-256 round constants of FIPS 180-4, written in decimal. -/
def shaK : List Nat :=
  [1116352408, 1899447441, 3049323471, 3921009573, 961987163,
   1508970993, 2453635748, 2870763221, 3624381080, 310598401,
   607225278, 1426881987, 1925078388, 2162078206, 2614888103,
   3248222580, 3835390401, 4022224774, 264347078, 604807628,
   770255983, 1249150122, 1555081692, 1996064986, 2554220882,
   2821834349, 2952996808, 3210313671, 3336571891, 3584528711,
   113926993, 338241895, 666307205, 773529912, 1294757372,
   1396182291, 1695183700, 1986661051, 2177026350, 2456956037,
   2730485921, 2820302411, 3259730800, 3345764771, 3516065817,
   3600352804, 4094571909, 275423344, 430227734, 506948616,
   659060556, 883997877, 958139571, 1322822218, 1537002063,
   1747873779, 1955562222, 2024104815, 2227730452, 2361852424,
   2428436474, 2756734187, 3204031479, 3329325298]

/-- The SHA-256 initial hash value of FIPS 180-4, written in decimal. -/
def shaH0 : List Nat :=
  [1779033703, 3144134277, 1013904242, 2773480762, 1359893119,
   2600822924, 528734635, 1541459225]

/-- SHA-256 padding: append `0x80`, zeros, then the 64-bit big-endian bit
length, reaching a multiple of 64 bytes. -/
def shaPad (msg : List Nat) : List Nat :=
  let len := msg.length
  let zeros := (119 - len % 64) % 64
  let bits := 8 * len
  msg ++ 0x80 :: List.replicate zeros 0 ++
    [w32 (bits / 72057594037927936) % 256, (bits / 281474976710656) % 256,
     (bits / 1099511627776) % 256, (bits / 4294967296) % 256,
     (bits / 16777216) % 256, (bits / 65536) % 256,
     (bits / 256) % 256, bits % 256]

/-- Split padded input into 64-byte chunks (`fuel` exceeds the length). -/
def shaChunks (fuel : Nat) (bs : List Nat) : List (List Nat) :=
  match fuel with
  | 0 => []
  | fuel + 1 =>
    match bs with
    | [] => []
    | _ => bs.take 64 :: shaChunks fuel (bs.drop 64)

/-- Pack bytes into big-endian 32-bit words. -/
def packWords (fuel : Nat) (bs : List Nat) : List Nat :=
  match fuel with
  | 0 => []
  | fuel + 1 =>
    match bs with
    | a :: b :: c :: d :: rest => (((a * 256 + b) * 256 + c) * 256 + d) :: packWords fuel rest
    | _ => []

/-- Extend 16 schedule words to 64. `acc` holds the schedule so far in
reverse; `count` words remain to be produced. -/
def shaExtend (count : Nat) (acc : List Nat) : List Nat :=
  match count with
  | 0 => acc.reverse
  | count + 1 =>
    let g := fun (i : Nat) => acc.getD i 0
    let s0 := (rotr 7 (g 14)) ^^^ (rotr 18 (g 14)) ^^^ ((g 14) >>> 3)
    let s1 := (rotr 17 (g 1)) ^^^ (rotr 19 (g 1)) ^^^ ((g 1) >>> 10)
    shaExtend count (w32 (g 15 + s0 + g 6 + s1) :: acc)

/-- One SHA-256 compression round: state is the eight working variables. -/
def shaRound (st : List Nat) (kw : Nat × Nat) : List Nat :=
  match st with
  | [a, b, c, d, e, f, g, h] =>
    let s1 := (rotr 6 e) ^^^ (rotr 11 e) ^^^ (rotr 25 e)
    let ch := (e &&& f) ^^^ ((0xFFFFFFFF ^^^ e) &&& g)
    let temp1 := w32 (h + s1 + ch + kw.1 + kw.2)
    let s0 := (rotr 2 a) ^^^ (rotr 13 a) ^^^ (rotr 22 a)
    let maj := (a &&& b) ^^^ (a &&& c) ^^^ (b &&& c)
    let temp2 := w32 (s0 + maj)
    [w32 (temp1 + temp2), a, b, c, w32 (d + temp1), e, f, g]
  | other => other

/-- Compress one 64-byte chunk into the running hash value. -/
def shaCompress (h : List Nat) (chunk : List Nat) : List Nat :=
  let ws := shaExtend 48 (packWords 17 chunk).reverse
  let st := (shaK.zip ws).foldl shaRound h
  (h.zip st).map (fun p => w32 (p.1 + p.2))

/-- Serialize a 32-bit word big-endian. -/
def wordBytes (n : Nat) : List Nat :=
  [(n / 16777216) % 256, (n / 65536) % 256, (n / 256) % 256, n % 256]

/-- SHA-256 of a byte list, as 32 bytes. -/
def sha256 (msg : List Nat) : List Nat :=
  let padded := shaPad msg
  let hh := (shaChunks (padded.length + 1) padded).foldl shaCompress shaH0
  (hh.map wordBytes).flatten

/-- Lowercase hex digit for a nibble. -/
def hexDigitChar (n : Nat) : Char :=
  if n < 10 then Char.ofNat (48 + n) else Char.ofNat (87 + n)

/-- Lowercase hex encoding of bytes — the `digest('hex')` output format. -/
def bytesToHex (bs : List Nat) : String :=
  String.mk ((bs.map (fun b => [hexDigitChar (b / 16), hexDigitChar (b % 16)])).flatten)

/-- HMAC-SHA-256 over byte lists (RFC 2104 with a 64-byte block). -/
def hmacSha256 (key msg : List Nat) : List Nat :=
  let key' := if 64 < key.length then sha256 key else key
  let kpad := key' ++ List.replicate (64 - key'.length) 0
  sha256 ((kpad.map (fun b => b ^^^ 0x5c)) ++
    sha256 ((kpad.map (fun b => b ^^^ 0x36)) ++ msg))

/-- Model of `crypto.createHmac('sha256', secret).update(body).digest('hex')`:
the hex-encoded HMAC-SHA-256 of the UTF-8 bytes of `body` keyed by the
UTF-8 bytes of `secret`. -/
def hexHmacSha256 (secret body : String) : String :=
  bytesToHex (hmacSha256 (strBytes secret) (strBytes body))

/-! ## JavaScript value semantics

The handlers in `src/index.ts` access fields of dynamically-typed parsed
JSON. `JsVal` is a JavaScript value in the places the handlers touch:
`none` is `undefined`, `some j` a JSON value. Property access on
`undefined`/`null` throws a `TypeError`; `Date.prototype.toISOString`
throws a `RangeError` on an invalid time value. -/

/-- A thrown JavaScript exception, as far as the handlers distinguish
them (they do not: every catch block is generic). -/
inductive JsErr where
  | typeError
  | rangeError
deriving DecidableEq, Repr

/-- A JavaScript value in handler positions: `none` is `undefined`. -/
abbrev JsVal := Option Json

/-- Plain property access `v.k`: throws on `undefined`/`null`, looks up in
objects, yields `undefined` on other values. -/
def jsGet (v : JsVal) (k : String) : Except JsErr JsVal :=
  match v with
  | none => .error .typeError
  | some .null => .error .typeError
  | some (.obj kvs) => .ok (Json.lookupKey kvs k)
  | some _ => .ok none

/-- Optional-chain property access `v?.k`: `undefined` instead of a throw
on `undefined`/`null`. -/
def jsGetOpt (v : JsVal) (k : String) : JsVal :=
  match v with
  | none => none
  | some .null => none
  | some (.obj kvs) => Json.lookupKey kvs k
  | some _ => none

/-- Optional-chain index `v?.[i]`: array element, character of a string,
or the string-keyed field of an object, as JavaScript indexing behaves. -/
def jsIndexOpt (v : JsVal) (i : Nat) : JsVal :=
  match v with
  | some (.arr xs) => xs[i]?
  | some (.str s) => (s.data[i]?).map (fun c => .str (String.mk [c]))
  | some (.obj kvs) => Json.lookupKey kvs (toString i)
  | _ => none

/-- JavaScript truthiness of a value. -/
def truthy (v : JsVal) : Bool :=
  match v with
  | none => false
  | some .null => false
  | some (.bool b) => b
  | some (.num n) => n != 0
  | some (.str s) => s != ""
  | some (.arr _) => true
  | some (.obj _) => true

mutual

/-- JavaScript `ToString` of a JSON value, as template literals render it:
arrays join their elements with commas (`Array.prototype.toString`),
objects render as `[object Object]`. -/
def jsDisplayJson : Json → String
  | .null => "null"
  | .bool true => "true"
  | .bool false => "false"
  | .num n => toString n
  | .str s => s
  | .arr xs => jsDisplayList xs
  | .obj _ => "[object Object]"

/-- Comma-joined rendering of array elements (`null` renders empty). -/
def jsDisplayList : List Json → String
  | [] => ""
  | [x] => jsDisplayElem x
  | x :: rest => jsDisplayElem x ++ "," ++ jsDisplayList rest

/-- One array element inside a join: `null` contributes the empty string. -/
def jsDisplayElem : Json → String
  | .null => ""
  | j => jsDisplayJson j

end

/-- Template-literal rendering of a handler value (`undefined` renders as
the word `undefined`). -/
def jsDisplay (v : JsVal) : String :=
  match v with
  | none => "undefined"
  | some j => jsDisplayJson j

/-- `JSON.stringify` applied to a handler value: `undefined` stringifies
to `undefined` in a log position. Indentation arguments are ignored by the
model (no claim concerns them). -/
def jsStringifyVal (v : JsVal) : String :=
  match v with
  | none => "undefined"
  | some j => Json.serialize j

/-- JavaScript `ToNumber` of a numeric string: leading/trailing JSON-style
whitespace, optional sign, decimal digits. Empty (after trim) is `0`;
anything else is NaN (`none`). Fraction/exponent strings are outside the
model (module comment). -/
def strToNumber (s : String) : Option Int :=
  let cs := (Json.skipWs s.data).reverse
  let cs := (Json.skipWs cs).reverse
  match cs with
  | [] => some 0
  | '-' :: ds => if ds ≠ [] && ds.all Json.isDigit then some (-(Int.ofNat (Json.digitsToNat ds))) else none
  | '+' :: ds => if ds ≠ [] && ds.all Json.isDigit then some (Int.ofNat (Json.digitsToNat ds)) else none
  | ds => if ds.all Json.isDigit then some (Int.ofNat (Json.digitsToNat ds)) else none

/-- The numeric value of `v * m` in JavaScript, where `none` is NaN:
`undefined` coerces to NaN, `null` and `[]` to `0`, booleans to `0`/`1`,
a one-element array to its element's number, objects to NaN. -/
def jsMulNum (v : JsVal) (m : Int) : Option Int :=
  match v with
  | none => none
  | some .null => some 0
  | some (.bool b) => some (if b then m else 0)
  | some (.num n) => some (n * m)
  | some (.str s) => (strToNumber s).map (· * m)
  | some (.arr []) => some 0
  | some (.arr [.num n]) => some (n * m)
  | some (.arr [.str s]) => (strToNumber s).map (· * m)
  | some (.arr _) => none
  | some (.obj _) => none

/-- `new Date(ms).toISOString()`: throws a `RangeError` when the time
value is NaN or beyond the ±8.64e15 ms ECMAScript range; otherwise renders
the instant. The textual ISO-8601 format is abstracted as the millisecond
value (module comment) — only whether this throws is claim-relevant. -/
def jsToISO (ms : Option Int) : Except JsErr String :=
  match ms with
  | none => .error .rangeError
  | some v =>
    if v.natAbs ≤ 8640000000000000 then .ok ("time(" ++ toString v ++ ")")
    else .error .rangeError

/-- `xs.join(', ')` over mapped email values: `null`/`undefined` elements
contribute empty strings, as `Array.prototype.join` renders them. -/
def jsJoinVals (vs : List JsVal) : String :=
  String.intercalate ", " (vs.map fun v =>
    match v with
    | none => ""
    | some .null => ""
    | some j => jsDisplayJson j)

/-- `v.map((r) => r.email).join(', ') || 'unknown'` with an optional chain
on `v`: `undefined`/`null` give `'unknown'`; an array maps (a `null`
element makes `r.email` throw) and joins; any other truthy value has no
`map` method, so the call throws a `TypeError`. -/
def jsMapEmailJoin (v : JsVal) : Except JsErr String :=
  match v with
  | none => pure "unknown"
  | some .null => pure "unknown"
  | some (.arr xs) => do
    let emails ← xs.mapM (fun r => jsGet (some r) "email")
    let j := jsJoinVals emails
    pure (if j = "" then "unknown" else j)
  | some _ => .error .typeError

/-- `v.join(', ') || 'none'` guarded by `?.` on `v` (the webhook
`message.updated` folders line): `undefined`/`null` give `'none'`; a
truthy non-array has no `join`, so the call throws. -/
def jsFoldersJoin (v : JsVal) : Except JsErr String :=
  match v with
  | none => pure "none"
  | some .null => pure "none"
  | some (.arr xs) =>
    let j := jsJoinVals (xs.map some)
    pure (if j = "" then "none" else j)
  | some _ => .error .typeError

/-- `v?.length`: array and string lengths, `length` field of an object,
`undefined` otherwise. -/
def jsLengthOpt (v : JsVal) : JsVal :=
  match v with
  | some (.arr xs) => some (.num (Int.ofNat xs.length))
  | some (.str s) => some (.num (Int.ofNat s.length))
  | some (.obj kvs) => Json.lookupKey kvs "length"
  | _ => none

/-- `v.length > 0` for an already-truthy `v` (`undefined > 0` is false). -/
def jsLenPos (v : JsVal) : Bool :=
  match jsLengthOpt v with
  | some (.num k) => 0 < k
  | _ => false

/-- `v.substring(0, 100)` for a truthy `v`: strings are sliced; any other
truthy value has no `substring` method and the call throws. -/
def jsSubstring100 (v : JsVal) : Except JsErr String :=
  match v with
  | some (.str s) => .ok (String.mk (s.data.take 100))
  | _ => .error .typeError

/-! ## Notification classification

The webhook handler switches on `payload.type` verbatim
(src/index.ts:182); the pub/sub handler first strips everything from the
first occurrence of `.transformed` via
`nylasNotification.type.split('.transformed')[0]` (src/index.ts:272) and
switches on the result (with no `event.created` case of its own). -/

/-- The handler a notification category is dispatched to. -/
inductive NotifTag where
  | msgCreated
  | msgUpdated
  | eventCreated
  | other
deriving DecidableEq, Repr

/-- The webhook `switch (payload.type)`: its three case labels, else the
default branch. -/
def webhookSwitchTag (t : String) : NotifTag :=
  if t = "message.created" then .msgCreated
  else if t = "message.updated" then .msgUpdated
  else if t = "event.created" then .eventCreated
  else .other

/-- The pub/sub `switch (baseType)`: only `message.created` and
`message.updated` have cases there. -/
def pubsubSwitchTag (t : String) : NotifTag :=
  if t = "message.created" then .msgCreated
  else if t = "message.updated" then .msgUpdated
  else .other

/-- Does `l` start with `pre`? (The scanning step of `String.prototype.split`.) -/
def listStartsWith : List Char → List Char → Bool
  | [], _ => true
  | _ :: _, [] => false
  | a :: as, b :: bs => a == b && listStartsWith as bs

/-- The prefix of `l` before the first occurrence of `sep` — the whole of
`l` when `sep` never occurs. This is `l.split(sep)[0]` of JavaScript. -/
def splitBefore (sep : List Char) : List Char → List Char
  | [] => []
  | c :: rest => if listStartsWith sep (c :: rest) then [] else c :: splitBefore sep rest

/-- The `.transformed` marker the pub/sub path splits on. -/
def markerChars : List Char := ".transformed".data

/-- `nylasNotification.type.split('.transformed')[0]` (src/index.ts:272). -/
def pubsubBaseType (t : String) : String :=
  String.mk (splitBefore markerChars t.data)

/-- The handler the pub/sub path dispatches a raw category string to. -/
def pubsubClassify (t : String) : NotifTag :=
  pubsubSwitchTag (pubsubBaseType t)

/-! ## The webhook POST handler (src/index.ts:130-237) -/

/-- The `message.created` branch of the webhook switch
(src/index.ts:183-192). The `- Date:` line computes
`new Date(messageData.date * 1000).toISOString()` with no guard on
`date`. -/
def webhookMsgCreated (payload : Json) : Except JsErr (List String) := do
  let pdata ← jsGet (some payload) "data"
  let messageData ← jsGet pdata "object"
  let mid ← jsGet messageData "id"
  let mfrom ← jsGet messageData "from"
  let fromEmail := jsGetOpt (jsIndexOpt mfrom 0) "email"
  let fromName := jsGetOpt (jsIndexOpt mfrom 0) "name"
  let mto ← jsGet messageData "to"
  let toJoined ← jsMapEmailJoin mto
  let msubject ← jsGet messageData "subject"
  let mdate ← jsGet messageData "date"
  let iso ← jsToISO (jsMulNum mdate 1000)
  pure ["New message received:",
    "- ID: " ++ jsDisplay mid,
    "- From: " ++ (if truthy fromEmail then jsDisplay fromEmail else "unknown") ++
      " (" ++ (if truthy fromName then jsDisplay fromName else "unnamed") ++ ")",
    "- To: " ++ toJoined,
    "- Subject: " ++ (if truthy msubject then jsDisplay msubject else "No subject"),
    "- Date: " ++ iso]

/-- The `message.updated` branch of the webhook switch
(src/index.ts:194-202). -/
def webhookMsgUpdated (payload : Json) : Except JsErr (List String) := do
  let pdata ← jsGet (some payload) "data"
  let updatedMessage ← jsGet pdata "object"
  let mid ← jsGet updatedMessage "id"
  let tid ← jsGet updatedMessage "thread_id"
  let mfolders ← jsGet updatedMessage "folders"
  let foldersStr ← jsFoldersJoin mfolders
  let munread ← jsGet updatedMessage "unread"
  pure ["Message updated:",
    "- ID: " ++ jsDisplay mid,
    "- Thread ID: " ++ jsDisplay tid,
    "- Current folders: " ++ foldersStr,
    "- Unread status: " ++ (if truthy munread then "Unread" else "Read")]

/-- The `event.created` branch of the webhook switch
(src/index.ts:204-222): start/end times are guarded by truthiness checks,
participants by an optional chain with `|| 0`. -/
def webhookEventCreated (payload : Json) : Except JsErr (List String) := do
  let pdata ← jsGet (some payload) "data"
  let eventData ← jsGet pdata "object"
  let eid ← jsGet eventData "id"
  let title ← jsGet eventData "title"
  let calId ← jsGet eventData "calendar_id"
  let mwhen ← jsGet eventData "when"
  let whenLogs ←
    if truthy mwhen then do
      let st ← jsGet mwhen "start_time"
      let en ← jsGet mwhen "end_time"
      let stStr ← if truthy st then jsToISO (jsMulNum st 1000) else pure "unknown"
      let enStr ← if truthy en then jsToISO (jsMulNum en 1000) else pure "unknown"
      pure ["- Start: " ++ stStr, "- End: " ++ enStr]
    else pure ([] : List String)
  let mparts ← jsGet eventData "participants"
  let partsLen := jsLengthOpt mparts
  pure (["New event created:",
    "- ID: " ++ jsDisplay eid,
    "- Title: " ++ (if truthy title then jsDisplay title else "Untitled event"),
    "- Calendar ID: " ++ jsDisplay calId] ++ whenLogs ++
    ["- Participants: " ++ (if truthy partsLen then jsDisplay partsLen else "0")])

/-- The body of the webhook handler's try block after verification
(src/index.ts:171-231): the summary logs, the `payload && payload.type`
guard, and the `switch (payload.type)`. A non-string truthy `type` matches
no case label (the `switch` uses strict equality) and falls to default. -/
def webhookProcess (payload : Json) : Except JsErr (List String) := do
  let pid ← jsGet (some payload) "id"
  let ptype ← jsGet (some payload) "type"
  let psource ← jsGet (some payload) "source"
  let pattempt ← jsGet (some payload) "webhook_delivery_attempt"
  let logs0 := ["Notification ID: " ++ jsDisplay pid,
    "Notification Type: " ++ jsDisplay ptype,
    "Notification Source: " ++ jsDisplay psource,
    "Delivery Attempt: " ++ (if truthy pattempt then jsDisplay pattempt else "1")]
  if truthy (some payload) && truthy ptype then do
    let branch ←
      match ptype with
      | some (.str t) =>
        match webhookSwitchTag t with
        | .msgCreated => webhookMsgCreated payload
        | .msgUpdated => webhookMsgUpdated payload
        | .eventCreated => webhookEventCreated payload
        | .other => pure ["Received " ++ t ++ " notification, no specific handling implemented"]
      | _ => pure ["Received " ++ jsDisplay ptype ++ " notification, no specific handling implemented"]
    pure (logs0 ++ branch)
  else
    pure logs0

/-- The webhook POST response as far as the claims observe it. -/
structure WebhookOutcome where
  status : Nat
  body : String
  warned : Bool
deriving DecidableEq, Repr

/-- Truthiness of `process.env.NYLAS_WEBHOOK_SECRET` or of the
`x-nylas-signature` header: present and non-empty. -/
def truthyStr (s : Option String) : Bool :=
  match s with
  | none => false
  | some s => s != ""

/-- The preHandler hook's raw-body capture (src/index.ts:92-98): by the
time the hook runs, `request.body` is the value produced by the JSON
content-type parser, so `typeof rawBody === 'string'` holds only when the
document itself was a JSON string literal; every other body is
re-serialized with `JSON.stringify`. -/
def storedRawBody (payload : Json) : String :=
  match payload with
  | .str s => s
  | v => Json.serialize v

/-- The signature comparison of src/index.ts:154-161: recompute
HMAC-SHA-256 of the captured body under the secret, hex-encoded, and
compare to the header value with strict string equality. -/
def signatureAccepts (secret rawBody sig : String) : Bool :=
  hexHmacSha256 secret rawBody == sig

/-- Dispatch result mapped to the handler's response (src/index.ts:229-236):
`\x7b success: true \x7d` with 200 on success, 500 when the try block threw. -/
def finishWebhook (payload : Json) (warned : Bool) : WebhookOutcome :=
  match webhookProcess payload with
  | .ok _ => ⟨200, Json.serialize (.obj [("success", .bool true)]), warned⟩
  | .error _ => ⟨500, Json.serialize (.obj [("error", .str "Failed to process webhook")]), warned⟩

/-- `POST /webhook/nylas` (src/index.ts:130-237) as a function of the
configured secret, the signature header, and the raw request body text. A
body the JSON content-type parser rejects never reaches the handler:
fastify answers 400. Otherwise: when both secret and signature are truthy,
the captured `rawBody` is checked for falsiness (400), the signature is
compared (401 on mismatch); otherwise verification is skipped with a
warning (`warned`); then the notification is processed. -/
def webhookPost (secret sig : Option String) (raw : String) : WebhookOutcome :=
  match Json.parse raw with
  | none => ⟨400, "Bad Request", false⟩
  | some payload =>
    if truthyStr secret && truthyStr sig then
      let rawBody := storedRawBody payload
      if rawBody == "" then
        ⟨400, Json.serialize (.obj [("error", .str "Raw body not available")]), false⟩
      else if signatureAccepts (secret.getD "") rawBody (sig.getD "") then
        finishWebhook payload false
      else
        ⟨401, Json.serialize (.obj [("error", .str "Invalid signature")]), false⟩
    else
      finishWebhook payload true

/-! ## The challenge GET handler (src/index.ts:111-127) -/

/-- How the challenge route answers: an explicit `reply.send` with a
content type, or a bare returned value handed to fastify. -/
inductive ChallengeReply where
  | reply (status : Nat) (contentType : String) (body : String)
  | bare (value : Option String)
deriving DecidableEq, Repr

/-- `GET /webhook/nylas`: a truthy `challenge` query parameter is echoed
verbatim with `Content-Type: text/plain`; otherwise the handler returns
the (empty or absent) value itself. -/
def getWebhookNylas (challenge : Option String) : ChallengeReply :=
  match challenge with
  | some t => if t != "" then .reply 200 "text/plain" t else .bare (some t)
  | none => .bare none

/-! ## The pub/sub POST handler (src/index.ts:240-355) -/

/-- Byte coercion of one array element under `Buffer.from(array)`:
`ToNumber & 255`, with non-numeric values contributing `0`. -/
def jsByteOf (j : Json) : Nat :=
  match j with
  | .num n => (n % 256).toNat
  | .bool true => 1
  | .bool false => 0
  | .null => 0
  | .str s => match strToNumber s with
    | some n => (n % 256).toNat
    | none => 0
  | _ => 0

/-- `Buffer.from(data, 'base64')` on a truthy `data` value: strings decode
forgivingly (never a failure), arrays are taken as byte values, and any
other value (number, boolean, plain object) makes `Buffer.from` throw a
`TypeError`. -/
def bufferFromB64 (d : Json) : Except JsErr (List Nat) :=
  match d with
  | .str s => .ok (b64decode s)
  | .arr xs => .ok (xs.map jsByteOf)
  | _ => .error .typeError

/-- The pub/sub `message.created` branch (src/index.ts:275-302): every
summarized field is behind a truthiness guard, including the date. -/
def pubsubMsgCreated (n : Json) : Except JsErr (List String) := do
  let pdata ← jsGet (some n) "data"
  let messageData ← jsGet pdata "object"
  let mid ← jsGet messageData "id"
  let mfrom ← jsGet messageData "from"
  let fromLogs ←
    if truthy mfrom && jsLenPos mfrom then
      pure ["- From: " ++
        (if truthy (jsGetOpt (jsIndexOpt mfrom 0) "email")
         then jsDisplay (jsGetOpt (jsIndexOpt mfrom 0) "email") else "unknown") ++
        " (" ++
        (if truthy (jsGetOpt (jsIndexOpt mfrom 0) "name")
         then jsDisplay (jsGetOpt (jsIndexOpt mfrom 0) "name") else "unnamed") ++ ")"]
    else pure ([] : List String)
  let mto ← jsGet messageData "to"
  let toLogs ←
    if truthy mto then do
      let s ← jsMapEmailJoin mto
      pure ["- To: " ++ s]
    else pure ([] : List String)
  let msubject ← jsGet messageData "subject"
  let mbody ← jsGet messageData "body"
  let bodyLogs ←
    if truthy mbody then do
      let p ← jsSubstring100 mbody
      pure ["- Body preview: " ++ p ++ "..."]
    else pure ([] : List String)
  let mdate ← jsGet messageData "date"
  let dateLogs ←
    if truthy mdate then do
      let iso ← jsToISO (jsMulNum mdate 1000)
      pure ["- Date: " ++ iso]
    else pure ([] : List String)
  pure (["New message received via Pub/Sub:", "- ID: " ++ jsDisplay mid] ++
    fromLogs ++ toLogs ++
    ["- Subject: " ++ (if truthy msubject then jsDisplay msubject else "No subject")] ++
    bodyLogs ++ dateLogs ++
    ["- Full message data: " ++ jsStringifyVal messageData])

/-- The pub/sub `message.updated` branch (src/index.ts:304-334). -/
def pubsubMsgUpdated (n : Json) : Except JsErr (List String) := do
  let pdata ← jsGet (some n) "data"
  let updatedMessage ← jsGet pdata "object"
  let mid ← jsGet updatedMessage "id"
  let tid ← jsGet updatedMessage "thread_id"
  let tidLogs := if truthy tid then ["- Thread ID: " ++ jsDisplay tid] else []
  let msubject ← jsGet updatedMessage "subject"
  let subjLogs := if truthy msubject then ["- Subject: " ++ jsDisplay msubject] else []
  let mfrom ← jsGet updatedMessage "from"
  let fromLogs ←
    if truthy mfrom && jsLenPos mfrom then
      pure ["- From: " ++
        (if truthy (jsGetOpt (jsIndexOpt mfrom 0) "email")
         then jsDisplay (jsGetOpt (jsIndexOpt mfrom 0) "email") else "unknown") ++
        " (" ++
        (if truthy (jsGetOpt (jsIndexOpt mfrom 0) "name")
         then jsDisplay (jsGetOpt (jsIndexOpt mfrom 0) "name") else "unnamed") ++ ")"]
    else pure ([] : List String)
  let mfolders ← jsGet updatedMessage "folders"
  let folderLogs ←
    if truthy mfolders then do
      let s ← jsFoldersJoin mfolders
      pure ["- Current folders: " ++ s]
    else pure ([] : List String)
  let munread ← jsGet updatedMessage "unread"
  let mbody ← jsGet updatedMessage "body"
  let bodyLogs ←
    if truthy mbody then do
      let p ← jsSubstring100 mbody
      pure ["- Body preview: " ++ p ++ "..."]
    else pure ([] : List String)
  pure (["Message updated via Pub/Sub:", "- ID: " ++ jsDisplay mid] ++
    tidLogs ++ subjLogs ++ fromLogs ++ folderLogs ++
    ["- Unread status: " ++ (if truthy munread then "Unread" else "Read")] ++
    bodyLogs ++
    ["- Full message data: " ++ jsStringifyVal updatedMessage])

/-- The inner try block of the pub/sub handler after a successful
`JSON.parse` (src/index.ts:260-341): logs, guard, marker stripping, and
the smaller pub/sub switch. Calling `.split` on a truthy non-string type
throws; the default branch stringifies `nylasNotification.data.object`
(throwing when `data` is absent). -/
def pubsubProcess (n : Json) : Except JsErr (List String) := do
  let nid ← jsGet (some n) "id"
  let ntype ← jsGet (some n) "type"
  let nsource ← jsGet (some n) "source"
  let logs0 := ["- Notification ID: " ++ jsDisplay nid,
    "- Notification Type: " ++ jsDisplay ntype,
    "- Notification Source: " ++ jsDisplay nsource]
  if truthy (some n) && truthy ntype then do
    let branch ←
      match ntype with
      | some (.str t) =>
        match pubsubSwitchTag (pubsubBaseType t) with
        | .msgCreated => pubsubMsgCreated n
        | .msgUpdated => pubsubMsgUpdated n
        | _ => do
          let pdata ← jsGet (some n) "data"
          let pobj ← jsGet pdata "object"
          pure ["Received " ++ t ++ " notification via Pub/Sub, no specific handling implemented",
            "Object data: " ++ jsStringifyVal pobj]
      | _ => .error .typeError
    pure (logs0 ++ branch)
  else
    pure logs0

/-- The pub/sub POST response as far as the claims observe it:
`rawLogged` is the `Raw message data:` diagnostic the inner catch block
prints (the decoded text), `none` when that catch never ran. -/
structure PubsubOutcome where
  status : Nat
  body : String
  rawLogged : Option String
deriving DecidableEq, Repr

/-- `POST /pubsub/nylas` (src/index.ts:240-355) as a function of the
parsed request body. The envelope check answers 400 when `message` or
`message.data` is falsy (short-circuit: `data` is only read when `message`
is truthy); the base64 decode and metadata logs run outside the inner try,
so a throw there (non-string, non-array `data`) reaches the outer catch
and answers 500; everything from `JSON.parse(decodedData)` onward is
caught by the inner catch, which logs the raw decoded text, and the
handler then acknowledges with 204. -/
def pubsubPost (b : Json) : PubsubOutcome :=
  let err500 : PubsubOutcome :=
    ⟨500, Json.serialize (.obj [("error", .str "Failed to process Pub/Sub message")]), none⟩
  let bad400 : PubsubOutcome :=
    ⟨400, Json.serialize (.obj [("error", .str "Invalid message format")]), none⟩
  match jsGet (some b) "message" with
  | .error _ => err500
  | .ok msg =>
    if !truthy msg then bad400
    else
      match jsGet msg "data" with
      | .error _ => err500
      | .ok mdata =>
        if !truthy mdata then bad400
        else
          match mdata with
          | none => bad400
          | some d =>
            match bufferFromB64 d with
            | .error _ => err500
            | .ok bytes =>
              let decoded := utf8Decode bytes
              match Json.parse decoded with
              | none => ⟨204, "", some decoded⟩
              | some n =>
                match pubsubProcess n with
                | .ok _ => ⟨204, "", none⟩
                | .error _ => ⟨204, "", some decoded⟩

/-! ## Auxiliary definitions and concrete request bodies used by the
theorems below -/

/-- `String.prototype.toUpperCase` restricted to the ASCII range — enough
for hex digest strings. -/
def upperAscii (s : String) : String := String.mk (s.data.map Char.toUpper)

/-- The envelope validation condition of src/index.ts:246: `message`
absent-or-falsy, or (with `message` truthy) `message.data` absent-or-falsy.
This is the exact guard of the 400 branch, extracted for the
characterization theorem. -/
def invalidEnvelope (b : Json) : Bool :=
  match jsGet (some b) "message" with
  | .error _ => false
  | .ok msg =>
    if !truthy msg then true
    else match jsGet msg "data" with
      | .error _ => false
      | .ok d => !truthy d

/-- Executable check that no nonempty proper suffix of `m` is also a
prefix of `m` (no border). -/
def noBorderB (m : List Char) : Bool :=
  (List.range m.length).all (fun k => k == 0 || !(listStartsWith (m.drop k) m))

/-- No nonempty proper suffix of `m` is a prefix of `m`. For such a
separator, an occurrence of `m` can never straddle the boundary of
`s ++ m`. -/
def noBorder (m : List Char) : Prop :=
  ∀ k, k < m.length → 0 < k → listStartsWith (m.drop k) m = false

/-- A webhook body whose raw bytes contain whitespace, so that
re-serializing the parsed document does not reproduce them. -/
def c1raw : String := "\x7b \"a\": 1 \x7d"

/-- A `message.created` webhook body whose message object has no `date`
field. -/
def c3raw : String :=
  "\x7b\"type\":\"message.created\",\"data\":\x7b\"object\":\x7b\"id\":\"msg-c3\",\"subject\":\"Hello\"\x7d\x7d\x7d"

/-- The same notification with a `date` field present. -/
def c3rawDated : String :=
  "\x7b\"type\":\"message.created\",\"data\":\x7b\"object\":\x7b\"id\":\"msg-c3\",\"subject\":\"Hello\",\"date\":1715000000\x7d\x7d\x7d"

/-- A dateless `message.created` webhook body for the verification-skip
scenario. -/
def c6raw : String := "\x7b\"type\":\"message.created\",\"data\":\x7b\"object\":\x7b\"id\":\"msg-c6\"\x7d\x7d\x7d"

/-- A pub/sub envelope whose `data` is present but not valid base64. -/
def c4env : Json := .obj [("message", .obj [("data", .str "!!!"), ("messageId", .str "m4")]),
  ("subscription", .str "sub4")]

/-- A pub/sub envelope whose `data` decodes to `not json`. -/
def c7env : Json := .obj [("message", .obj [("data", .str "bm90IGpzb24="), ("messageId", .str "m7")]),
  ("subscription", .str "sub7")]

/-- A pub/sub envelope whose `data` decodes to the JSON document `"x"`. -/
def c9env : Json := .obj [("message", .obj [("data", .str "Ingi"), ("messageId", .str "m9")]),
  ("subscription", .str "sub9")]

/-- A pub/sub envelope with `message.data` present but empty. -/
def c10env1 : Json := .obj [("message", .obj [("data", .str "")]), ("subscription", .str "s1")]

/-- A pub/sub envelope with `message.data` absent. -/
def c10env2 : Json := .obj [("message", .obj [("messageId", .str "m2")]), ("subscription", .str "s2")]

/-! ## Properties of the marker-stripping split -/

/-- `listStartsWith` holds exactly of a list prefix. -/
theorem listStartsWith_iff (p : List Char) : ∀ l, listStartsWith p l = true ↔ ∃ u, p ++ u = l := by
  induction p with
  | nil => intro l; simp [listStartsWith]
  | cons a as ih =>
    intro l
    cases l with
    | nil => simp [listStartsWith]
    | cons b bs =>
      simp only [listStartsWith, Bool.and_eq_true, beq_iff_eq, ih, List.cons_append,
        List.cons.injEq]
      constructor
      · rintro ⟨hab, u, hu⟩; exact ⟨u, hab, hu⟩
      · rintro ⟨u, hab, hu⟩; exact ⟨hab, u, hu⟩

theorem noBorder_of_noBorderB (m : List Char) (h : noBorderB m = true) : noBorder m := by
  intro k hk hpos
  have hb := List.all_eq_true.mp h k (List.mem_range.mpr hk)
  simp only [Bool.or_eq_true, beq_iff_eq, Bool.not_eq_true'] at hb
  rcases hb with h0 | hns
  · omega
  · exact hns

theorem listStartsWith_self (l : List Char) : listStartsWith l l = true :=
  (listStartsWith_iff l l).mpr ⟨[], List.append_nil l⟩

/-- For a border-free separator `m` and nonempty `t`, `t ++ m` starts with
`m` exactly when `t` does: the appended copy cannot create an occurrence
that straddles the boundary. -/
theorem startsWith_append_cancel (m t : List Char) (hnb : noBorder m) (htne : t ≠ []) :
    listStartsWith m (t ++ m) = listStartsWith m t := by
  rw [Bool.eq_iff_iff, listStartsWith_iff, listStartsWith_iff]
  constructor
  · rintro ⟨u, hu⟩
    by_cases hle : m.length ≤ t.length
    · refine ⟨t.drop m.length, ?_⟩
      have h1 : (m ++ u).take m.length = m := List.take_left m u
      have h2 : (t ++ m).take m.length = t.take m.length := List.take_append_of_le_length hle
      have h3 : t.take m.length = m := by rw [← h2, ← hu, h1]
      calc m ++ t.drop m.length = t.take m.length ++ t.drop m.length := by rw [h3]
        _ = t := List.take_append_drop _ t
    · push_neg at hle
      exfalso
      have hk := hnb t.length hle (List.length_pos.mpr htne)
      have h4 : (t ++ m).drop t.length = m := List.drop_left t m
      have h5 : (m ++ u).drop t.length = m.drop t.length ++ u :=
        List.drop_append_of_le_length (le_of_lt hle)
      have h6 : m.drop t.length ++ u = m := by rw [← h5, hu, h4]
      have h7 : listStartsWith (m.drop t.length) m = true := (listStartsWith_iff _ _).mpr ⟨u, h6⟩
      rw [hk] at h7
      exact Bool.false_ne_true h7
  · rintro ⟨u, hu⟩
    exact ⟨u ++ m, by rw [← List.append_assoc, hu]⟩

/-- Appending a border-free separator to a list does not change the prefix
before the separator's first occurrence. -/
theorem splitBefore_append_self (m : List Char) (hne : m ≠ []) (hnb : noBorder m) :
    ∀ s : List Char, splitBefore m (s ++ m) = splitBefore m s := by
  intro s
  induction s with
  | nil =>
    rw [List.nil_append]
    obtain ⟨c, r, hm⟩ := List.exists_cons_of_ne_nil hne
    subst hm
    simp [splitBefore, listStartsWith_self]
  | cons c s ih =>
    have hsw : listStartsWith m (c :: (s ++ m)) = listStartsWith m (c :: s) :=
      startsWith_append_cancel m (c :: s) hnb (by simp)
    show splitBefore m (c :: (s ++ m)) = splitBefore m (c :: s)
    simp only [splitBefore]
    rw [hsw]
    split
    · rfl
    · rw [ih]

/-- The `.transformed` marker has no border. -/
theorem marker_noBorder : noBorder markerChars :=
  noBorder_of_noBorderB markerChars (by decide)

/-! ## The claims -/

set_option maxRecDepth 100000

/-- C5: with the body bytes and the secret fixed, the signature comparison
of src/index.ts:154-161 accepts exactly the hex-encoded HMAC-SHA-256 of
those bytes under the secret — an exact-match, case-sensitive string
comparison; in particular an uppercased correct digest is rejected. -/
theorem c5_exact_case_sensitive :
    (∀ B S t : String, signatureAccepts S B t = true ↔ t = hexHmacSha256 S B) ∧
    signatureAccepts "shhh" "payload-bytes"
      (upperAscii (hexHmacSha256 "shhh" "payload-bytes")) = false := by
  constructor
  · intro B S t
    unfold signatureAccepts
    rw [beq_iff_eq]
    exact eq_comm
  · decide

/-- C1: the webhook path does not verify over the raw request bytes. The
captured `rawBody` is `JSON.stringify(request.body)` — the parsed body
re-serialized — so for a body whose bytes are `\x7b "a": 1 \x7d` a signature
computed over the exact raw bytes is rejected with 401, while a signature
computed over the re-serialized form `\x7b"a":1\x7d` is accepted with 200:
the opposite of the claimed behavior on this input. -/
theorem c1_reserialized_not_raw :
    (webhookPost (some "topsecret") (some (hexHmacSha256 "topsecret" c1raw)) c1raw).status = 401 ∧
    (webhookPost (some "topsecret") (some (hexHmacSha256 "topsecret" "\x7b\"a\":1\x7d")) c1raw).status = 200 := by
  refine ⟨by decide, by decide⟩

/-- C2 (counterexample): on the direct webhook path the switch matches
`payload.type` verbatim, so `message.created.transformed` falls to the
default branch instead of the `message.created` handler — the claimed
stripping is not shared by both intake paths. -/
theorem c2_counterexample :
    webhookSwitchTag "message.created.transformed" = NotifTag.other ∧
    webhookSwitchTag "message.created" = NotifTag.msgCreated ∧
    webhookSwitchTag "message.created.transformed" ≠ webhookSwitchTag "message.created" := by
  refine ⟨by decide, by decide, by decide⟩

/-- C2 (amended): on the relay (pub/sub) path, appending the
`.transformed` marker to any category string never changes which handler
the notification is dispatched to: `split('.transformed')[0]` strips the
marker (and everything after its first occurrence) before the switch. The
direct webhook path performs no such stripping. -/
theorem c2_relay_strips_marker (t : String) :
    pubsubClassify (t ++ ".transformed") = pubsubClassify t := by
  unfold pubsubClassify pubsubBaseType
  rw [String.data_append, show (".transformed" : String).data = markerChars from rfl,
    splitBefore_append_self markerChars (by decide) marker_noBorder]

/-- C3: a `message.created` webhook notification whose message object has
no `date` field makes the handler throw — `new Date(undefined * 1000)
.toISOString()` raises a RangeError — and the request is answered 500, not
2xx; the same notification with a `date` present is answered 200. -/
theorem c3_missing_date_500 :
    (webhookPost none none c3raw).status = 500 ∧
    (webhookPost none none c3rawDated).status = 200 := by
  refine ⟨by decide, by decide⟩

/-- C4 (counterexample): an envelope whose `message.data` is present but
not valid base64 is not rejected with a client-error status: node's
base64 decoding is forgiving, the garbage decodes to the empty document,
the inner JSON parse fails, and the delivery is acknowledged with 204. -/
theorem c4_invalid_base64_still_204 :
    (pubsubPost c4env).status = 204 ∧
    ¬(400 ≤ (pubsubPost c4env).status ∧ (pubsubPost c4env).status < 500) := by
  refine ⟨by decide, by decide⟩

/-- C4 (amended): the relay path answers 400 exactly when the envelope's
`message` field, or its `message.data` field, is absent or falsy — never
because of invalid base64, which the decode step accepts forgivingly. -/
theorem c4_400_iff_falsy_envelope (b : Json) :
    (pubsubPost b).status = 400 ↔ invalidEnvelope b = true := by
  unfold pubsubPost invalidEnvelope
  cases hmsg : jsGet (some b) "message" with
  | error e => simp
  | ok msg =>
    by_cases ht : truthy msg
    · simp only [ht, Bool.not_true, Bool.false_eq_true, if_false, ite_false]
      cases hd : jsGet msg "data" with
      | error e => simp
      | ok d =>
        by_cases htd : truthy d
        · simp only [htd, Bool.not_true, Bool.false_eq_true, ite_false]
          cases d with
          | none => simp [truthy] at htd
          | some dj =>
            cases hbuf : bufferFromB64 dj with
            | error e => simp [hbuf]
            | ok bytes =>
              cases hp : Json.parse (utf8Decode bytes) with
              | none => simp [hbuf, hp]
              | some n =>
                cases hproc : pubsubProcess n with
                | error e => simp [hbuf, hp, hproc]
                | ok logs => simp [hbuf, hp, hproc]
        · simp [htd]
    · simp [ht]

/-- C6: when the secret or the signature header is missing (falsy), the
webhook path never answers 401 and always logs the skip warning — but it
is not always accepted with 200: the same dispatch fault as C3 (a
`message.created` body without `date`) makes a verification-skipped
request answer 500. -/
theorem c6_skip_policy :
    (∀ (sec sig : Option String) (raw : String),
      (truthyStr sec && truthyStr sig) = false →
        (webhookPost sec sig raw).status ≠ 401 ∧
        (∀ payload, Json.parse raw = some payload → (webhookPost sec sig raw).warned = true)) ∧
    (webhookPost none none c6raw).status = 500 := by
  constructor
  · intro sec sig raw h
    unfold webhookPost
    cases hp : Json.parse raw with
    | none =>
      constructor
      · simp
      · intro payload hpay
        exact absurd hpay (by simp)
    | some payload =>
      simp only [h, Bool.false_eq_true, if_false, ite_false]
      constructor
      · cases hproc : webhookProcess payload with
        | ok logs => simp [finishWebhook, hproc]
        | error e => simp [finishWebhook, hproc]
      · intro payload' hpay
        cases hproc : webhookProcess payload with
        | ok logs => simp [finishWebhook, hproc]
        | error e => simp [finishWebhook, hproc]
  · decide

/-- C6 (witness): a secretless, signatureless request with a well-formed
body is not answered 401 and fires the skip warning. -/
theorem c6_skip_policy_witness :
    (webhookPost none none "\x7b\"type\":\"ping\"\x7d").status ≠ 401 ∧
    (webhookPost none none "\x7b\"type\":\"ping\"\x7d").warned = true :=
  ⟨(c6_skip_policy.1 none none _ (by decide)).1,
   (c6_skip_policy.1 none none _ (by decide)).2 (Json.obj [("type", Json.str "ping")]) (by rfl)⟩

/-- C7: when the envelope check passes with a string payload whose decode
fails to parse as JSON, the relay path still answers 204 and the inner
catch logs the raw decoded text; the parse failure is never surfaced as a
4xx or 5xx. -/
theorem c7_malformed_inner_json_204 (b m : Json) (s : String)
    (hm : jsGet (some b) "message" = .ok (some m))
    (ht : truthy (some m) = true)
    (hd : jsGet (some m) "data" = .ok (some (.str s)))
    (hs : s ≠ "")
    (hp : Json.parse (utf8Decode (b64decode s)) = none) :
    (pubsubPost b).status = 204 ∧
    (pubsubPost b).rawLogged = some (utf8Decode (b64decode s)) := by
  have hts : truthy (some (.str s)) = true := by simp [truthy, hs]
  unfold pubsubPost
  simp only [hm, ht, hd, hts, Bool.not_true, Bool.false_eq_true, ite_false, if_false]
  simp [bufferFromB64, hp]

/-- C7 (witness): the envelope carrying base64 of `not json` is answered
204 with the decoded text logged. -/
theorem c7_malformed_inner_json_204_witness :
    (pubsubPost c7env).status = 204 ∧
    (pubsubPost c7env).rawLogged = some (utf8Decode (b64decode "bm90IGpzb24=")) :=
  c7_malformed_inner_json_204 c7env _ "bm90IGpzb24=" (by rfl) (by rfl) (by rfl) (by decide) (by rfl)

/-- C8: a GET with a truthy challenge query parameter `t` is answered with
status 200, content type `text/plain`, and a body that is exactly `t` —
no quoting, wrapping or re-encoding. (For the empty string the code takes
the bare-return path and the response is assembled by the framework, not
by src/index.ts.) -/
theorem c8_challenge_echo (t : String) (h : t ≠ "") :
    getWebhookNylas (some t) = ChallengeReply.reply 200 "text/plain" t := by
  simp [getWebhookNylas, bne_iff_ne, h]

/-- C8 (witness): `challenge=abc123` echoes exactly `abc123`. -/
theorem c8_challenge_echo_witness :
    getWebhookNylas (some "abc123") = ChallengeReply.reply 200 "text/plain" "abc123" :=
  c8_challenge_echo "abc123" (by decide)

/-- C9: once the envelope check passes with `message.data` a truthy
string, the relay handler always answers 204: the base64 decode cannot
fail, and every fault after it — parse failure or any defect in the
per-category summarization — is absorbed by the inner catch, so the 500
branch is unreachable for such requests. -/
theorem c9_always_204_after_envelope_check (b m : Json) (s : String)
    (hm : jsGet (some b) "message" = .ok (some m))
    (ht : truthy (some m) = true)
    (hd : jsGet (some m) "data" = .ok (some (.str s)))
    (hs : s ≠ "") :
    (pubsubPost b).status = 204 := by
  have hts : truthy (some (.str s)) = true := by simp [truthy, hs]
  unfold pubsubPost
  simp only [hm, ht, hd, hts, Bool.not_true, Bool.false_eq_true, ite_false, if_false]
  cases hp : Json.parse (utf8Decode (b64decode s)) with
  | none => simp [bufferFromB64, hp]
  | some n =>
    cases hproc : pubsubProcess n with
    | error e => simp [bufferFromB64, hp, hproc]
    | ok logs => simp [bufferFromB64, hp, hproc]

/-- C9 (witness): a well-formed envelope decoding to the JSON document
`"x"` is answered 204. -/
theorem c9_always_204_witness : (pubsubPost c9env).status = 204 :=
  c9_always_204_after_envelope_check c9env _ "Ingi" (by rfl) (by rfl) (by rfl) (by decide)

/-- C10: an envelope whose `message.data` is present but equal to the
empty string is answered 400 with the very same response as one whose
`message.data` is absent — the falsy check conflates the two. -/
theorem c10_empty_equals_absent (b1 b2 m1 m2 : Json)
    (h1 : jsGet (some b1) "message" = .ok (some m1))
    (ht1 : truthy (some m1) = true)
    (hd1 : jsGet (some m1) "data" = .ok (some (.str "")))
    (h2 : jsGet (some b2) "message" = .ok (some m2))
    (ht2 : truthy (some m2) = true)
    (hd2 : jsGet (some m2) "data" = .ok none) :
    (pubsubPost b1).status = 400 ∧ pubsubPost b1 = pubsubPost b2 := by
  have he : truthy (some (Json.str "")) = false := by decide
  have hn : truthy (none : JsVal) = false := by decide
  unfold pubsubPost
  simp only [h1, h2, ht1, ht2, hd1, hd2, he, hn, Bool.not_true, Bool.not_false,
    Bool.false_eq_true, ite_false, if_false, if_true, ite_true]
  exact ⟨trivial, trivial⟩

/-- C10 (witness): the empty-`data` envelope and the missing-`data`
envelope receive identical 400 responses. -/
theorem c10_empty_equals_absent_witness :
    (pubsubPost c10env1).status = 400 ∧ pubsubPost c10env1 = pubsubPost c10env2 :=
  c10_empty_equals_absent c10env1 c10env2 _ _ (by rfl) (by rfl) (by rfl) (by rfl) (by rfl) (by rfl)
